import Mathlib

/-!
Shallow embedding of the log ingestion and filtering pipeline of
`multi-logfile-analysis` (files `src/app/log_processor.py` and
`src/app/utils.py`), together with theorems settling the specification
claims about it.

Modelling conventions:
* Python `datetime.datetime` values are embedded as natural numbers via an
  order-preserving encoding of the field tuple
  (year, month, day, hour, minute, second, microsecond); `datetime.datetime`
  construction (which raises `ValueError` on out-of-range fields) becomes the
  `Option`-valued `mkDatetime`.
* Python `re` patterns are embedded by a small executable regex engine:
  an AST (`Regex`), a compiler from pattern strings (`reCompile`, modelling
  `re.compile`, returning `none` where Python raises `re.error`), and a
  fuel-indexed backtracking matcher with Python's leftmost / greedy /
  first-alternative semantics.  The engine covers the constructs used by the
  program's built-in patterns and plain keyword text (literals, `\d` `\w`
  `\s` `\S` `\Z`, character sets, ranges, groups, `(?=...)`, `(?:...)`,
  alternation and the quantifiers `*` `+` `?` `{m}` `{m,n}` `{m,}` with lazy
  variants); constructs outside this subset fail to compile.
* The encoding-detection cascade of `process_log_files` calls the external
  libraries `charset_normalizer` and `chardet`; its outcome is abstracted as
  the `decoded : Option String` field of `UploadedFile` (`none` means no
  strategy produced text).  Everything downstream of decoding is modelled
  from the source.
* `.strip()` / `.lower()` are modelled by the character-list functions
  `pyStrip` / `pyLower` (ASCII view; they agree with Python on the ASCII
  text the claims exercise).
-/

/-! ### Character classes -/

/-- Python `\w` (ASCII/alphanumeric view): letters, digits or underscore. -/
def isWordChar (c : Char) : Bool :=
  c.isAlphanum || c = '_'

/-- Python `\s`: space, tab, newline, carriage return, vertical tab, form feed. -/
def isSpaceChar (c : Char) : Bool :=
  c = ' ' || c = '\t' || c = '\n' || c = '\r' || c = '\x0b' || c = '\x0c'

/-- Python `str.strip()` (whitespace view of `isSpaceChar`), written on the
character list so that it evaluates inside the kernel. -/
def pyStrip (s : String) : String :=
  ⟨((s.data.dropWhile isSpaceChar).reverse.dropWhile isSpaceChar).reverse⟩

/-- Python `str.lower()` (ASCII case folding). -/
def pyLower (s : String) : String :=
  ⟨s.data.map Char.toLower⟩

/-- Value of a string of decimal digits. -/
def digitsToNat (cs : List Char) : Nat :=
  cs.foldl (fun a c => a * 10 + (c.toNat - 48)) 0

/-- Python `int(s)` restricted to the digit strings the capture groups
produce: `none` (the caught `ValueError`) unless `s` is a non-empty run of
decimal digits. -/
def pyToNat? (s : String) : Option Nat :=
  if s.data.isEmpty then none
  else if s.data.all Char.isDigit then some (digitsToNat s.data)
  else none

/-- Python `sep.join(parts)`. -/
def joinWith (sep : String) : List String → String
  | [] => ""
  | [k] => k
  | k :: rest => k ++ sep ++ joinWith sep rest

/-- One element inside a `[...]` character set. -/
inductive SetElem where
  | lit (c : Char)
  | digit
  | word
  | space
  | notspace
  | range (lo hi : Char)
  deriving Repr, DecidableEq

/-- Does a set element match a character (with optional case folding)? -/
def SetElem.matches (icase : Bool) : SetElem → Char → Bool
  | .lit a, c => a = c || (icase && a.toLower = c.toLower)
  | .digit, c => c.isDigit
  | .word, c => isWordChar c
  | .space, c => isSpaceChar c
  | .notspace, c => !isSpaceChar c
  | .range lo hi, c =>
      (lo ≤ c && c ≤ hi) || (icase && ((lo ≤ c.toLower && c.toLower ≤ hi) ||
        (lo ≤ c.toUpper && c.toUpper ≤ hi)))

/-- A single-character matcher of the pattern language. -/
inductive CCls where
  | lit (c : Char)
  | digit
  | word
  | space
  | notspace
  /-- `.` — with `re.DOTALL` it also matches a newline. -/
  | anyDot (dotall : Bool)
  | set (neg : Bool) (items : List SetElem)
  deriving Repr, DecidableEq

/-- Does a character class match a character (with optional case folding)? -/
def CCls.matches (icase : Bool) : CCls → Char → Bool
  | .lit a, c => a = c || (icase && a.toLower = c.toLower)
  | .digit, c => c.isDigit
  | .word, c => isWordChar c
  | .space, c => isSpaceChar c
  | .notspace, c => !isSpaceChar c
  | .anyDot dotall, c => dotall || c ≠ '\n'
  | .set neg items, c =>
      let m := items.any (fun i => i.matches icase c)
      if neg then !m else m

/-! ### Regex abstract syntax -/

/-- Abstract syntax of the supported fragment of Python regular expressions. -/
inductive Regex where
  /-- matches the empty string -/
  | eps
  | cls (c : CCls)
  | seq (a b : Regex)
  | alt (a b : Regex)
  /-- numbered capturing group `( ... )` -/
  | group (i : Nat) (r : Regex)
  /-- `r{lo,hi}` (`hi = none` means unbounded); `lazy` marks `...?` variants -/
  | rep (r : Regex) (lo : Nat) (hi : Option Nat) (lazy : Bool)
  /-- lookahead `(?= ... )` -/
  | look (r : Regex)
  /-- `\Z` — end of text -/
  | eos
  deriving Repr, DecidableEq

/-- Structural size, used to budget matcher fuel. -/
def Regex.size : Regex → Nat
  | .eps => 1
  | .cls _ => 1
  | .seq a b => a.size + b.size + 1
  | .alt a b => a.size + b.size + 1
  | .group _ r => r.size + 1
  | .rep r _ _ _ => r.size + 1
  | .look r => r.size + 1
  | .eos => 1

/-- Captured groups: most recent capture first, keyed by group number. -/
abbrev Caps := List (Nat × List Char)

/-- The text captured by group `i`, if it participated in the match. -/
def capsGet (caps : Caps) (i : Nat) : Option (List Char) :=
  match caps with
  | [] => none
  | (j, s) :: rest => if j = i then some s else capsGet rest i

/-! ### Backtracking matcher

Continuation-passing matcher with Python `re` semantics: alternatives are
tried left to right, greedy quantifiers try longer repetitions first, lazy
quantifiers shorter ones, and the first overall success wins.  The `fuel`
argument bounds recursion depth; `fuelFor` below is generous enough for
every concrete evaluation in this development, and every universally
quantified theorem conditions on the matcher's actual output. -/

/-- Match `r` against a prefix of `s`, calling `k` with the remaining text
and captured groups on each candidate; returns the first success. -/
def matchR (icase : Bool) : Nat → Regex → List Char → Caps →
    (List Char → Caps → Option (Caps × List Char)) → Option (Caps × List Char)
  | 0, _, _, _, _ => none
  | fuel+1, r, s, caps, k =>
    match r with
    | .eps => k s caps
    | .cls c =>
      match s with
      | [] => none
      | ch :: rest => if c.matches icase ch then k rest caps else none
    | .seq a b =>
      matchR icase fuel a s caps fun s' caps' => matchR icase fuel b s' caps' k
    | .alt a b =>
      match matchR icase fuel a s caps k with
      | some res => some res
      | none => matchR icase fuel b s caps k
    | .group i r1 =>
      matchR icase fuel r1 s caps fun s' caps' =>
        k s' ((i, s.take (s.length - s'.length)) :: caps')
    | .look r1 =>
      match matchR icase fuel r1 s caps (fun s' caps' => some (caps', s')) with
      | some (caps', _) => k s caps'
      | none => none
    | .eos =>
      match s with
      | [] => k [] caps
      | _ :: _ => none
    | .rep r1 lo hi lz =>
      if lo > 0 then
        matchR icase fuel r1 s caps fun s' caps' =>
          matchR icase fuel (.rep r1 (lo-1) (hi.map (· - 1)) lz) s' caps' k
      else
        match hi with
        | some 0 => k s caps
        | _ =>
          let more := fun (_ : Unit) =>
            matchR icase fuel r1 s caps fun s' caps' =>
              if s'.length = s.length then k s' caps'
              else matchR icase fuel (.rep r1 0 (hi.map (· - 1)) lz) s' caps' k
          if lz then
            match k s caps with
            | some res => some res
            | none => more ()
          else
            match more () with
            | some res => some res
            | none => k s caps

/-- Fuel budget for one match attempt. -/
def fuelFor (r : Regex) (s : List Char) : Nat :=
  (r.size + 8) * (s.length + 8)

/-- One match attempt anchored at the start of `s`:
`(group 0 text, captures, text after the match)`. -/
def tryMatchAt (icase : Bool) (r : Regex) (s : List Char) :
    Option (List Char × Caps × List Char) :=
  match matchR icase (fuelFor r s) r s [] (fun rest caps => some (caps, rest)) with
  | some (caps, rest) => some (s.take (s.length - rest.length), caps, rest)
  | none => none

/-- Model of `re.search`: try successive start positions left to right and
return the first (leftmost) match. -/
def searchIn (icase : Bool) (r : Regex) : List Char → Option (List Char × Caps × List Char)
  | [] => tryMatchAt icase r []
  | c :: t =>
    match tryMatchAt icase r (c :: t) with
    | some res => some res
    | none => searchIn icase r t

/-- Model of `re.finditer`: non-overlapping matches scanned left to right
(an empty match advances the scan position by one character). -/
def finditer (icase : Bool) (r : Regex) : Nat → List Char → List (List Char × Caps)
  | 0, _ => []
  | fuel+1, s =>
    match searchIn icase r s with
    | none => []
    | some (g0, caps, rest) =>
      if g0.isEmpty then
        (g0, caps) :: (match rest with
          | [] => []
          | _ :: t => finditer icase r fuel t)
      else (g0, caps) :: finditer icase r fuel rest

/-! ### Pattern compiler (model of `re.compile`)

Recursive-descent parser for the supported fragment; `none` models a raised
`re.error`.  Group numbers follow Python: capturing groups are numbered from
1 in order of their opening parenthesis. -/

/-- Read a run of leading decimal digits. -/
def readNat : List Char → Option (Nat × List Char)
  | s =>
    let ds := s.takeWhile Char.isDigit
    if ds.isEmpty then none
    else some (ds.foldl (fun a c => a * 10 + (c.toNat - 48)) 0, s.dropWhile Char.isDigit)

/-- Parse the body of a `\x7bm,n\x7d` quantifier (after the opening brace);
`none` means the brace does not begin a valid quantifier and is literal. -/
def parseQuantBody (s : List Char) : Option (Nat × Option Nat × List Char) :=
  match readNat s with
  | some (m, rest) =>
    match rest with
    | '\x7d' :: t => some (m, some m, t)
    | ',' :: rest2 =>
      match readNat rest2 with
      | some (n, '\x7d' :: t) => some (m, some n, t)
      | some _ => none
      | none =>
        match rest2 with
        | '\x7d' :: t => some (m, none, t)
        | _ => none
    | _ => none
  | none =>
    match s with
    | ',' :: rest2 =>
      match readNat rest2 with
      | some (n, '\x7d' :: t) => some (0, some n, t)
      | _ => none
    | _ => none

/-- Interpret an escape `\c` inside a character set. -/
def setEscape (c : Char) : Option SetElem :=
  if c = 'd' then some .digit
  else if c = 'w' then some .word
  else if c = 's' then some .space
  else if c = 'S' then some .notspace
  else if c = 'n' then some (.lit '\n')
  else if c = 't' then some (.lit '\t')
  else if c = 'r' then some (.lit '\r')
  else if c = 'f' then some (.lit '\x0c')
  else if c = 'v' then some (.lit '\x0b')
  else if c.isAlpha || c.isDigit then none
  else some (.lit c)

/-- Parse the items of a character set up to the closing `]`. -/
def parseSetItems : List Char → Option (List SetElem × List Char)
  | [] => none
  | ']' :: t => some ([], t)
  | '\\' :: c :: t =>
    match setEscape c with
    | none => none
    | some e =>
      match parseSetItems t with
      | some (es, t') => some (e :: es, t')
      | none => none
  | '\\' :: [] => none
  | c :: '-' :: d :: t =>
    if d = ']' then some ([.lit c, .lit '-'], t)
    else if d = '\\' then none
    else
      match parseSetItems t with
      | some (es, t') => some (.range c d :: es, t')
      | none => none
  | c :: t =>
    match parseSetItems t with
    | some (es, t') => some (.lit c :: es, t')
    | none => none

/-- Parse a character set after the opening `[` (a leading `]`, or one right
after `^`, is a literal, as in Python). -/
def parseSet (s : List Char) : Option (Bool × List SetElem × List Char) :=
  let (neg, s1) := match s with
    | '^' :: t => (true, t)
    | _ => (false, s)
  match s1 with
  | ']' :: t =>
    match parseSetItems t with
    | some (es, t') => some (neg, .lit ']' :: es, t')
    | none => none
  | _ =>
    match parseSetItems s1 with
    | some (es, t') => some (neg, es, t')
    | none => none

/-- Interpret a top-level escape `\c` as a regex node. -/
def topEscape (c : Char) : Option Regex :=
  if c = 'd' then some (.cls .digit)
  else if c = 'w' then some (.cls .word)
  else if c = 's' then some (.cls .space)
  else if c = 'S' then some (.cls .notspace)
  else if c = 'D' then some (.cls (.set true [.digit]))
  else if c = 'W' then some (.cls (.set true [.word]))
  else if c = 'Z' then some .eos
  else if c = 'n' then some (.cls (.lit '\n'))
  else if c = 't' then some (.cls (.lit '\t'))
  else if c = 'r' then some (.cls (.lit '\r'))
  else if c = 'f' then some (.cls (.lit '\x0c'))
  else if c = 'v' then some (.cls (.lit '\x0b'))
  else if c.isAlpha || c.isDigit then none
  else some (.cls (.lit c))

/-- Attach a parsed quantifier: reads an optional lazy `?` and rejects an
immediately following second quantifier (Python's "multiple repeat" error). -/
def finishQuant (r : Regex) (lo : Nat) (hi : Option Nat) (t : List Char) (g : Nat) :
    Option (Regex × List Char × Nat) :=
  let (lz, t') := match t with
    | '?' :: tt => (true, tt)
    | _ => (false, t)
  match t' with
  | '*' :: _ => none
  | '+' :: _ => none
  | '?' :: _ => none
  | _ => some (.rep r lo hi lz, t', g)

/-- Which grammar production `parseRx` is working on. -/
inductive PMode where
  | alt
  | sq
  | item
  | atom
  deriving Repr, DecidableEq

/-- Recursive-descent parser for the four productions (alternation,
concatenation, quantified atom, atom), written as one fuel-indexed function
so that it is structurally recursive and kernel-reducible. -/
def parseRx (dotall : Bool) : Nat → PMode → List Char → Nat →
    Option (Regex × List Char × Nat)
  | 0, _, _, _ => none
  | fuel+1, .alt, s, g =>
    match parseRx dotall fuel .sq s g with
    | none => none
    | some (r, s', g') =>
      match s' with
      | '|' :: t =>
        match parseRx dotall fuel .alt t g' with
        | none => none
        | some (r2, s'', g'') => some (.alt r r2, s'', g'')
      | _ => some (r, s', g')
  | fuel+1, .sq, s, g =>
    match s with
    | [] => some (.eps, [], g)
    | ')' :: _ => some (.eps, s, g)
    | '|' :: _ => some (.eps, s, g)
    | _ =>
      match parseRx dotall fuel .item s g with
      | none => none
      | some (r, s', g') =>
        match parseRx dotall fuel .sq s' g' with
        | none => none
        | some (r2, s'', g'') => some (.seq r r2, s'', g'')
  | fuel+1, .item, s, g =>
    match parseRx dotall fuel .atom s g with
    | none => none
    | some (r, s', g') =>
      match s' with
      | '*' :: t => finishQuant r 0 none t g'
      | '+' :: t => finishQuant r 1 none t g'
      | '?' :: t => finishQuant r 0 (some 1) t g'
      | '\x7b' :: t =>
        match parseQuantBody t with
        | some (lo, hi, t') => finishQuant r lo hi t' g'
        | none => some (r, s', g')
      | _ => some (r, s', g')
  | fuel+1, .atom, s, g =>
    match s with
    | [] => none
    | '(' :: '?' :: '=' :: t =>
      match parseRx dotall fuel .alt t g with
      | some (r, ')' :: t', g') => some (.look r, t', g')
      | _ => none
    | '(' :: '?' :: ':' :: t =>
      match parseRx dotall fuel .alt t g with
      | some (r, ')' :: t', g') => some (r, t', g')
      | _ => none
    | '(' :: '?' :: _ => none
    | '(' :: t =>
      match parseRx dotall fuel .alt t (g+1) with
      | some (r, ')' :: t', g') => some (.group g r, t', g')
      | _ => none
    | ')' :: _ => none
    | '[' :: t =>
      match parseSet t with
      | some (neg, items, t') => some (.cls (.set neg items), t', g)
      | none => none
    | '\\' :: c :: t =>
      match topEscape c with
      | some r => some (r, t, g)
      | none => none
    | '\\' :: [] => none
    | '.' :: t => some (.cls (.anyDot dotall), t, g)
    | '*' :: _ => none
    | '+' :: _ => none
    | '?' :: _ => none
    | '^' :: _ => none
    | '$' :: _ => none
    | c :: t => some (.cls (.lit c), t, g)

/-- Model of `re.compile pattern` (with an optional `re.DOTALL` flag):
`some (regex, number of capturing groups)` on success, `none` where Python
raises `re.error`.  Anchors (`^`, `$`), backreferences and the rarer `(?...)`
extensions are outside the modelled fragment and fail to compile. -/
def reCompile (pattern : String) (dotall : Bool) : Option (Regex × Nat) :=
  let cs := pattern.data
  match parseRx dotall (cs.length * 4 + 16) .alt cs 1 with
  | some (r, [], g) => some (r, g - 1)
  | _ => none

/-! ### Datetime model

`datetime.datetime` values are encoded as natural numbers by an
order-preserving, injective encoding of
(year, month, day, hour, minute, second, microsecond); comparisons on the
encodings agree with Python's field-lexicographic datetime order. -/

/-- Gregorian leap-year rule (as used by `datetime`). -/
def isLeapYear (y : Nat) : Bool :=
  y % 4 == 0 && (y % 100 != 0 || y % 400 == 0)

/-- Days in a month of a given year. -/
def daysInMonth (y m : Nat) : Nat :=
  if m = 2 then (if isLeapYear y then 29 else 28)
  else if m = 4 || m = 6 || m = 9 || m = 11 then 30
  else 31

/-- Model of the `datetime.datetime(year, month, day, hour, minute, second,
microsecond)` constructor: `none` models the `ValueError` raised on
out-of-range fields. -/
def mkDatetime (year month day hour minute second micro : Nat) : Option Nat :=
  if 1 ≤ year && year ≤ 9999 && 1 ≤ month && month ≤ 12 && 1 ≤ day &&
      day ≤ daysInMonth year month && hour ≤ 23 && minute ≤ 59 && second ≤ 59 &&
      micro ≤ 999999 then
    some (((((((year * 12 + (month - 1)) * 31 + (day - 1)) * 24 + hour) * 60
      + minute) * 60 + second) * 1000000) + micro)
  else none

/-- The encoding of `datetime.datetime.min` = 0001-01-01T00:00:00.000000. -/
def datetimeMin : Nat := 12 * 31 * 24 * 60 * 60 * 1000000

/-! ### `utils.py`: month table and `parse_log_time` -/

/-- The fixed three-letter month abbreviation table of `parse_log_time`. -/
def month_map : List (String × Nat) :=
  [("Jan", 1), ("Feb", 2), ("Mar", 3), ("Apr", 4), ("May", 5), ("Jun", 6),
   ("Jul", 7), ("Aug", 8), ("Sep", 9), ("Oct", 10), ("Nov", 11), ("Dec", 12)]

/-- `month_map.get name` (no default). -/
def monthLookup (s : String) : Option Nat :=
  (month_map.find? (fun p => p.1 == s)).map (·.2)

/-- The timestamp built from the seven capture groups
(monthName, day, hour, minute, second, millisecond, year):
`month_map.get(month_str, 1)` then the `datetime` constructor with the
millisecond scaled to microseconds.  A missing group or non-numeric field
models the exception Python catches, giving `none`. -/
def timeFromGroups (caps : Caps) : Option Nat :=
  let month := ((capsGet caps 1).bind (fun s => monthLookup (String.mk s))).getD 1
  match capsGet caps 2, capsGet caps 3, capsGet caps 4, capsGet caps 5,
      capsGet caps 6, capsGet caps 7 with
  | some day, some hour, some minute, some second, some ms, some year =>
    match pyToNat? (String.mk day), pyToNat? (String.mk hour), pyToNat? (String.mk minute),
        pyToNat? (String.mk second), pyToNat? (String.mk ms), pyToNat? (String.mk year) with
    | some d, some h, some mi, some sec, some msn, some y =>
      mkDatetime y month d h mi sec (msn * 1000)
    | _, _, _, _, _, _ => none
  | _, _, _, _, _, _ => none

/-- Model of `utils.parse_log_time(time_str, time_regex_pattern)`: re-search
the pattern inside the matched text, destructure the seven groups and build
the timestamp; every failure along the way (compile error, no match, group
count ≠ 7, bad fields) is swallowed by the source's `except`, yielding
`none`. -/
def parse_log_time (time_str : String) (time_regex_pattern : String) : Option Nat :=
  match reCompile time_regex_pattern false with
  | none => none
  | some (r, ngroups) =>
    if ngroups = 7 then
      match searchIn false r time_str.data with
      | none => none
      | some (_, caps, _) => timeFromGroups caps
    else none

/-! ### `utils.py` / `log_processor.py`: entries and extraction -/

/-- The `LogEntry` namedtuple. -/
structure LogEntry where
  content : String
  timestamp : Option Nat
  source_file : String
  time_str : String
  deriving Repr, DecidableEq

/-- The built-in default frame pattern `LogAnalyzerApp.LOG_REGEX_PATTERN`
(`main_window.py` line 19). -/
def LOG_REGEX_PATTERN_default : String := "(%@\\d+%[\\s\\S]*?(?=%@\\d+%|\\Z))"

/-- The built-in default time pattern `LogAnalyzerApp.TIME_REGEX_PATTERN`
(`main_window.py` line 20). -/
def TIME_REGEX_PATTERN_default : String :=
  "(\\w+)\\s+(\\d\x7b1,2\x7d)\\s+(\\d\x7b1,2\x7d):(\\d\x7b1,2\x7d):(\\d\x7b1,2\x7d):(\\d\x7b1,3\x7d)\\s+(\\d\x7b4\x7d)"

/-- The two pattern attributes a `LogProcessor` is constructed with. -/
structure LogProcessor where
  LOG_REGEX_PATTERN : String
  TIME_REGEX_PATTERN : String
  deriving Repr, DecidableEq

/-- The processor `main_window.py` constructs: both built-in defaults. -/
def defaultProcessor : LogProcessor :=
  { LOG_REGEX_PATTERN := LOG_REGEX_PATTERN_default,
    TIME_REGEX_PATTERN := TIME_REGEX_PATTERN_default }

/-- Model of `LogProcessor.extract_log_info(log_entry, source_file)`.  Note
that the source searches `self.TIME_REGEX_PATTERN` — the attribute set at
construction — not any user-edited pattern.  (A `self` pattern that failed
to compile would raise in Python; it is modelled as no match.  It is
unreachable from `main_window.py`, which always constructs the processor
with the built-in defaults.) -/
def extract_log_info (TIME_REGEX_PATTERN : String) (log_entry source_file : String) :
    LogEntry :=
  match reCompile TIME_REGEX_PATTERN false with
  | none =>
    { content := log_entry, timestamp := none, source_file := source_file, time_str := "" }
  | some (r, _) =>
    match searchIn false r log_entry.data with
    | some (g0, _, _) =>
      { content := log_entry, timestamp := parse_log_time (String.mk g0) TIME_REGEX_PATTERN,
        source_file := source_file, time_str := String.mk g0 }
    | none =>
      { content := log_entry, timestamp := none, source_file := source_file, time_str := "" }

/-- `content.replace('\r\n', '\n')`: left-to-right, non-overlapping. -/
def normalizeCRLF : List Char → List Char
  | [] => []
  | '\r' :: '\n' :: t => '\n' :: normalizeCRLF t
  | c :: t => c :: normalizeCRLF t

/-- The effective pattern used after fallback: compile the stripped override
(or the default when the override is blank); if that raises `re.error`,
compile the built-in default instead.  This is the pure function of
(candidate, default) the source implements with `try/except re.error`. -/
def effectivePattern (override default : String) (dotall : Bool) : Regex × Nat :=
  let text := if pyStrip override = "" then default else pyStrip override
  match reCompile text dotall with
  | some rc => rc
  | none => (reCompile default dotall).getD (.eps, 0)

/-- Model of `LogProcessor.parse_log_entries(content, log_regex_edit,
time_regex_edit)`: normalize line endings, build the effective frame pattern
(compiled with `re.DOTALL`), iterate its non-overlapping matches, and yield
each stripped, non-empty group 1.  The source also computes an effective
*time* pattern from `time_regex_edit` here and then never uses it (dead
store).  A match whose group 1 did not participate would raise in Python;
it is modelled as yielding nothing (no pattern in this development hits
that case). -/
def parse_log_entries (self : LogProcessor) (content : String)
    (log_regex_edit time_regex_edit : String) : List String :=
  let content2 := normalizeCRLF content.data
  let lp := effectivePattern log_regex_edit self.LOG_REGEX_PATTERN true
  (finditer false lp.1 (content2.length + 1) content2).filterMap fun m =>
    match capsGet m.2 1 with
    | none => none
    | some g1 =>
      let e := pyStrip (String.mk g1)
      if e = "" then none else some e

/-! ### `process_log_files` (ingest) -/

/-- One input file as `process_log_files` sees it.  `decoded` is the outcome
of the encoding-resolution cascade on the file's bytes (`charset_normalizer`,
then `chardet`, then the fixed encoding list — external detector libraries
abstracted): `none` means no strategy produced text. -/
structure UploadedFile where
  decoded : Option String
  name : String
  deriving Repr, DecidableEq

/-- Model of the inner `process_file_content(file_obj, file_name)`: decode
failure gives `([], name)`; otherwise segment and build one `LogEntry` per
segment.  (`extract_log_info` is total, so the per-entry `except` never
fires.) -/
def process_file_content (self : LogProcessor) (log_regex_edit time_regex_edit : String)
    (f : UploadedFile) : List LogEntry × String :=
  match f.decoded with
  | none => ([], f.name)
  | some content =>
    let entries := parse_log_entries self content log_regex_edit time_regex_edit
    (entries.map (fun e => extract_log_info self.TIME_REGEX_PATTERN e f.name), f.name)

/-- The sort key of `all_logs.sort(key=lambda x: x.timestamp if x.timestamp
else datetime.datetime.min)`: only `None` is falsy among the values the
lambda sees, so an absent timestamp maps to `datetime.min`. -/
def entryKey (e : LogEntry) : Nat :=
  e.timestamp.getD datetimeMin

/-- Comparison of sort keys, for the stable sort. -/
def entryLE (a b : LogEntry) : Prop :=
  entryKey a ≤ entryKey b

instance : DecidableRel entryLE := fun a b => Nat.decLe (entryKey a) (entryKey b)

instance : IsTotal LogEntry entryLE := ⟨fun a b => Nat.le_total (entryKey a) (entryKey b)⟩

instance : IsTrans LogEntry entryLE := ⟨fun _ _ _ => Nat.le_trans⟩

/-- The result-collection loop of `process_log_files`: per-file results are
consumed in submission order; an empty result adds the file name to
`failed_files`, a non-empty one extends `all_logs`. -/
def collectResults : List (List LogEntry × String) → List LogEntry × List String
  | [] => ([], [])
  | (r, n) :: rest =>
    let p := collectResults rest
    if r.isEmpty then (p.1, n :: p.2) else (r ++ p.1, p.2)

/-- Model of `LogProcessor.process_log_files`: process every file, collect
results in file order (the thread pool's futures are awaited in submission
order, so aggregation order is deterministic), then stably sort `all_logs`
by `entryKey`.  Python's `list.sort` is a stable sort; a stable sort by a
fixed key is unique, so the stable `List.insertionSort` is the same
function on lists. -/
def process_log_files (self : LogProcessor) (files : List UploadedFile)
    (log_regex_edit time_regex_edit : String) : List LogEntry × List String :=
  let c := collectResults (files.map (process_file_content self log_regex_edit time_regex_edit))
  (List.insertionSort entryLE c.1, c.2)

/-! ### `filter_logs_by_time_range` -/

/-- The per-entry test of `LogProcessor.filter_logs_by_time_range(logs,
start_time, end_time)`: drop entries without a timestamp, then drop those
before `start_time` or after `end_time` (only `None` is falsy among the
datetimes compared). -/
def timeRangeKeep (start_time end_time : Option Nat) (log : LogEntry) : Bool :=
  match log.timestamp with
  | none => false
  | some ts =>
    (match start_time with
     | some st => !decide (ts < st)
     | none => true) &&
    (match end_time with
     | some et => !decide (et < ts)
     | none => true)

/-- The loop of `filter_logs_by_time_range`, keeping entries that pass
`timeRangeKeep` in input order. -/
def filter_logs_by_time_range (logs : List LogEntry)
    (start_time end_time : Option Nat) : List LogEntry :=
  match logs with
  | [] => []
  | log :: rest =>
    if timeRangeKeep start_time end_time log then
      log :: filter_logs_by_time_range rest start_time end_time
    else filter_logs_by_time_range rest start_time end_time

/-- The §4.5 keep-predicate as the claim states it: the entry has a
timestamp, `start <= timestamp` when `start` is present, and
`timestamp <= end` when `end` is present. -/
def inTimeRange (start_time end_time : Option Nat) (log : LogEntry) : Bool :=
  match log.timestamp with
  | none => false
  | some ts =>
    (match start_time with
     | some st => decide (st ≤ ts)
     | none => true) &&
    (match end_time with
     | some et => decide (ts ≤ et)
     | none => true)

/-! ### `filter_logs_by_keywords` -/

/-- The character set of the metacharacter test
`re.search(r'[.*+?^$\x7b\x7d()|[\]\\]', k)`. -/
def regexMetachars : List Char :=
  ['.', '*', '+', '?', '^', '$', '\x7b', '\x7d', '(', ')', '|', '[', ']', '\\']

/-- Does a keyword contain a regex metacharacter? -/
def hasRegexChars (k : String) : Bool :=
  k.data.any (fun c => regexMetachars.contains c)

/-- Python's substring test `needle in hay`. -/
def strContains (hay needle : String) : Bool :=
  decide (needle.data <:+: hay.data)

/-- The batched accumulation loop shared by both filter branches: matched
entries are appended to `batch`, which is flushed to the output once it
reaches `batch_size`, with a final flush at the end. -/
def keywordFilterLoop (p : LogEntry → Bool) (batch_size : Nat) :
    List LogEntry → List LogEntry → List LogEntry → List LogEntry
  | [], acc, batch => acc ++ batch
  | log :: rest, acc, batch =>
    let batch' := if p log then batch ++ [log] else batch
    if batch_size ≤ batch'.length then keywordFilterLoop p batch_size rest (acc ++ batch') []
    else keywordFilterLoop p batch_size rest acc batch'

/-- `[re.compile(k, re.IGNORECASE) for k in valid_keywords]`: compiled in
order, the first failure raising (`none`). -/
def compileKeywords : List String → Option (List Regex)
  | [] => some []
  | k :: rest =>
    match reCompile k false with
    | none => none
    | some (r, _) =>
      match compileKeywords rest with
      | none => none
      | some rs => some (r :: rs)

/-- Model of `LogProcessor.filter_logs_by_keywords`, generalized over the
batch size (the source fixes it to 10000).  `.error` models the uncaught
`re.error` escaping the call. -/
def filter_logs_by_keywords_batched (batch_size : Nat) (logs : List LogEntry)
    (keywords : List String) : Except String (List LogEntry) :=
  if keywords.isEmpty then .ok logs
  else
    let valid_keywords := (keywords.map pyStrip).filter (fun k => k != "")
    if valid_keywords.isEmpty then .ok logs
    else if valid_keywords.any hasRegexChars then
      match reCompile (joinWith "|" valid_keywords) false with
      | some (r, _) =>
        .ok (keywordFilterLoop (fun log => (searchIn true r log.content.data).isSome)
          batch_size logs [] [])
      | none =>
        match compileKeywords valid_keywords with
        | some rs =>
          .ok (keywordFilterLoop
            (fun log => rs.any (fun r => (searchIn true r log.content.data).isSome))
            batch_size logs [] [])
        | none => .error "re.error"
    else
      let lowercase_keywords := valid_keywords.map pyLower
      .ok (keywordFilterLoop
        (fun log => lowercase_keywords.any (fun k => strContains (pyLower log.content) k))
        batch_size logs [] [])

/-- `LogProcessor.filter_logs_by_keywords` as in the source (batch size
10000). -/
def filter_logs_by_keywords (logs : List LogEntry) (keywords : List String) :
    Except String (List LogEntry) :=
  filter_logs_by_keywords_batched 10000 logs keywords

/-- Reference single-pass filter for the refinement claim: identical mode
and predicate resolution, but each matching entry is appended directly to
one output list (`List.filter`). -/
def filter_logs_by_keywords_ref (logs : List LogEntry) (keywords : List String) :
    Except String (List LogEntry) :=
  if keywords.isEmpty then .ok logs
  else
    let valid_keywords := (keywords.map pyStrip).filter (fun k => k != "")
    if valid_keywords.isEmpty then .ok logs
    else if valid_keywords.any hasRegexChars then
      match reCompile (joinWith "|" valid_keywords) false with
      | some (r, _) =>
        .ok (logs.filter (fun log => (searchIn true r log.content.data).isSome))
      | none =>
        match compileKeywords valid_keywords with
        | some rs =>
          .ok (logs.filter
            (fun log => rs.any (fun r => (searchIn true r log.content.data).isSome)))
        | none => .error "re.error"
    else
      let lowercase_keywords := valid_keywords.map pyLower
      .ok (logs.filter
        (fun log => lowercase_keywords.any (fun k => strContains (pyLower log.content) k)))


/-! ### Values used in claim statements and witnesses -/

/-- The compiled built-in default time pattern (it has 7 capture groups). -/
def defaultTimeRegex : Regex :=
  ((reCompile TIME_REGEX_PATTERN_default false).getD (.eps, 0)).1

/-- Capture list binding groups 1..7 to the given texts, in the order
(monthName, day, hour, minute, second, millisecond, year). -/
def mkCaps (m d h mi sec ms y : String) : Caps :=
  [(1, m.data), (2, d.data), (3, h.data), (4, mi.data), (5, sec.data),
   (6, ms.data), (7, y.data)]

/-- Sample entry whose content contains "err" (case-insensitively). -/
def entryErr : LogEntry :=
  { content := "An ERRor happened", timestamp := none, source_file := "w", time_str := "" }

/-- Sample entry whose content does not contain "err". -/
def entryOk : LogEntry :=
  { content := "all fine", timestamp := some datetimeMin, source_file := "w", time_str := "" }

/-- A user time-pattern override that compiles: seven `#`-separated groups. -/
def timeOverrideSample : String :=
  "(\\w+)#(\\d+)#(\\d+)#(\\d+)#(\\d+)#(\\d+)#(\\d+)"

/-- One file whose first entry parses to exactly `datetime.min` and whose
second entry has no timestamp. -/
def minTsFile : UploadedFile :=
  { decoded := some "%@1%Jan 1 0:0:0:0 0001 a\n%@2%b\n", name := "f1" }

/-- A file whose bytes resist every decoding strategy. -/
def fileBad : UploadedFile := { decoded := none, name := "bad" }

/-- A well-formed file with one entry. -/
def fileGood : UploadedFile := { decoded := some "%@1%hello err\n", name := "good" }

/-- A decodable file with no frame markers: zero entries after segmentation. -/
def fileEmpty : UploadedFile := { decoded := some "no frame markers", name := "empty1" }

/-- The capture list produced by the default time pattern on
`"May 3 10:20:30:123 2025"`. -/
def mayCaps : Caps :=
  [(7, "2025".data), (6, "123".data), (5, "30".data), (4, "20".data),
   (3, "10".data), (2, "3".data), (1, "May".data)]

/-! ## Helper lemmas -/

/-- The batched loop computes a plain filter: flushing the batch early never
changes the elements or their order. -/
theorem keywordFilterLoop_eq_filter (p : LogEntry → Bool) (bs : Nat) :
    ∀ (l acc batch : List LogEntry),
      keywordFilterLoop p bs l acc batch = acc ++ batch ++ l.filter p := by
  intro l
  induction l with
  | nil => intro acc batch; simp [keywordFilterLoop]
  | cons log rest ih =>
    intro acc batch
    rw [keywordFilterLoop]
    cases hpl : p log <;> simp only [hpl, List.filter_cons, if_true, if_false] <;>
      split <;> simp [ih]

/-! ## Claim theorems -/

/-- Negated strict comparison is the reversed inclusive one, at the
`decide` level. -/
theorem not_lt_decide (a b : Nat) : (!decide (a < b)) = decide (b ≤ a) := by
  rw [← decide_not, decide_eq_decide]
  omega

/-- Claim C3: `filter_logs_by_time_range` returns exactly the entries that
have a timestamp and satisfy the present inclusive bounds, in input order;
an absent bound imposes no constraint on its side, and entries without a
timestamp are always excluded — also when both bounds are absent. -/
theorem filter_logs_by_time_range_eq_filter (logs : List LogEntry)
    (start_time end_time : Option Nat) :
    filter_logs_by_time_range logs start_time end_time =
      logs.filter (inTimeRange start_time end_time) := by
  have hkeep : ∀ log, timeRangeKeep start_time end_time log =
      inTimeRange start_time end_time log := by
    intro log
    unfold timeRangeKeep inTimeRange
    cases log.timestamp with
    | none => rfl
    | some ts =>
      cases start_time <;> cases end_time <;> simp only [not_lt_decide]
  induction logs with
  | nil => rfl
  | cons log rest ih =>
    rw [filter_logs_by_time_range, List.filter_cons, hkeep, ih]


/-- Claim C2 (counterexample): with the built-in default frame pattern,
segmentation of `"%@1%A\n%@2%B\n"` does *not* yield `["A", "B"]`: group 1
of the default frame pattern spans the whole match, so each yielded entry
retains its `%@<digits>%` marker. -/
theorem parse_log_entries_not_marker_free :
    parse_log_entries defaultProcessor "%@1%A\n%@2%B\n" "" "" ≠ ["A", "B"] := by
  decide

/-- Claim C2 (amended): given the text `"%@1%A\n%@2%B\n"` and the built-in
default frame pattern, segmentation yields exactly the two entry strings
`"%@1%A"` and `"%@2%B"`, in that order — one entry per `%@<digits>%` marker,
each extending up to (but not including) the next marker or end of text,
whitespace-stripped, with its leading marker retained. -/
theorem parse_log_entries_default_example :
    parse_log_entries defaultProcessor "%@1%A\n%@2%B\n" "" "" = ["%@1%A", "%@2%B"] := by
  decide

/-- Claim C10: a keyword list that enters regex mode and contains a keyword
that is itself an invalid regex — here `["("]` — makes
`filter_logs_by_keywords` raise a pattern-compilation error instead of
returning a result, for every entry list including the empty one: the
`except` only guards the combined alternation, while the per-keyword
re-compilation in the fallback is unprotected. -/
theorem filter_logs_by_keywords_invalid_keyword_raises (logs : List LogEntry) :
    filter_logs_by_keywords logs ["("] = .error "re.error" := by
  rfl

/-- Claim C5 (failing input): the user time override `timeOverrideSample`
compiles, and `parse_log_time` would extract 2025-05-03T10:20:30.123 from
the entry `May#3#10#20#30#123#2025` with it; but the pipeline only compiles
the override (a dead store in `parse_log_entries`) while `extract_log_info`
searches the constructor's `TIME_REGEX_PATTERN`, so the produced entry has
an absent timestamp. -/
theorem time_override_compiles_but_is_ignored :
    (reCompile timeOverrideSample false).isSome = true ∧
    parse_log_time "May#3#10#20#30#123#2025" timeOverrideSample =
      some ((mkDatetime 2025 5 3 10 20 30 123000).getD 0) ∧
    (process_log_files defaultProcessor
        [{ decoded := some "%@1%May#3#10#20#30#123#2025\n", name := "h" }]
        "" timeOverrideSample).1 =
      [{ content := "%@1%May#3#10#20#30#123#2025", timestamp := none,
         source_file := "h", time_str := "" }] := by
  refine ⟨by decide, by decide, by decide⟩

/-- Rebuilding a string from its character list is the identity. -/
theorem string_mk_data (s : String) : (⟨s.data⟩ : String) = s := rfl

/-- Unfolding of `extract_log_info` once its pattern's compilation outcome
is known. -/
theorem extract_log_info_eq (tp s f : String) (r : Regex) (n : Nat)
    (hc : reCompile tp false = some (r, n)) :
    extract_log_info tp s f =
      match searchIn false r s.data with
      | some (g0, _, _) =>
        { content := s, timestamp := parse_log_time (String.mk g0) tp,
          source_file := f, time_str := String.mk g0 }
      | none =>
        { content := s, timestamp := none, source_file := f, time_str := "" } := by
  unfold extract_log_info
  rw [hc]

/-- Claim C4 (counterexample): the entry text `"xMay 3 10:20:30:123 2025"`
contains the substring `"May 3 10:20:30:123 2025"`, yet extraction with the
default time pattern matches from the earlier word character `x`, so the
raw match text is not that substring and the month name `xMay` falls back
to January: the claimed result does not hold for every entry text
*containing* the substring. -/
theorem extract_containing_substring_differs :
    strContains "xMay 3 10:20:30:123 2025" "May 3 10:20:30:123 2025" = true ∧
    (extract_log_info TIME_REGEX_PATTERN_default "xMay 3 10:20:30:123 2025" "f").time_str ≠
      "May 3 10:20:30:123 2025" ∧
    (extract_log_info TIME_REGEX_PATTERN_default "xMay 3 10:20:30:123 2025" "f").timestamp ≠
      some ((mkDatetime 2025 5 3 10 20 30 123000).getD 0) := by
  refine ⟨by decide, by decide, by decide⟩

/-- Claim C4 (amended): with the built-in default time pattern, extraction
from any entry text whose *leftmost* time-pattern match is exactly
`"May 3 10:20:30:123 2025"` yields the timestamp 2025-05-03T10:20:30.123
(milliseconds scaled to microseconds) and that substring as the raw match
text; extraction from any entry text with no substring matching the time
pattern yields an absent timestamp and an empty raw match text. -/
theorem extract_log_info_default_time_spec (s f : String) :
    (∀ caps rest,
      searchIn false defaultTimeRegex s.data =
          some ("May 3 10:20:30:123 2025".data, caps, rest) →
      extract_log_info TIME_REGEX_PATTERN_default s f =
        { content := s,
          timestamp := some ((mkDatetime 2025 5 3 10 20 30 123000).getD 0),
          source_file := f, time_str := "May 3 10:20:30:123 2025" }) ∧
    (searchIn false defaultTimeRegex s.data = none →
      extract_log_info TIME_REGEX_PATTERN_default s f =
        { content := s, timestamp := none, source_file := f, time_str := "" }) := by
  constructor
  · intro caps rest h
    rw [extract_log_info_eq TIME_REGEX_PATTERN_default s f defaultTimeRegex 7 rfl, h]
    rfl
  · intro h
    rw [extract_log_info_eq TIME_REGEX_PATTERN_default s f defaultTimeRegex 7 rfl, h]

/-- Witness for C4: the text equal to the substring itself realizes the
leftmost-match hypothesis, and `"no timestamp here"` realizes the no-match
hypothesis. -/
theorem extract_log_info_default_time_spec_witness :
    extract_log_info TIME_REGEX_PATTERN_default "May 3 10:20:30:123 2025" "f" =
      { content := "May 3 10:20:30:123 2025",
        timestamp := some ((mkDatetime 2025 5 3 10 20 30 123000).getD 0),
        source_file := "f", time_str := "May 3 10:20:30:123 2025" } ∧
    extract_log_info TIME_REGEX_PATTERN_default "no timestamp here" "f" =
      { content := "no timestamp here", timestamp := none, source_file := "f",
        time_str := "" } :=
  ⟨(extract_log_info_default_time_spec "May 3 10:20:30:123 2025" "f").1 mayCaps []
      (by decide),
   (extract_log_info_default_time_spec "no timestamp here" "f").2 (by decide)⟩

/-- Claim C8: for matched time fields, the month name is resolved through
the fixed three-letter table with unknown names defaulting to month 1
(`month_map.get(month_str, 1)`), and the timestamp is exactly the guarded
`datetime` construction `mkDatetime`, whose failure (e.g. day 32) yields an
absent timestamp instead of a propagating exception; the entry is still
kept — `extract_log_info` always returns an entry carrying the original
content and source file. -/
theorem parse_log_time_month_default_and_errors
    (m d h mi sec ms y : String) (dn hn miN sN msN yN : Nat)
    (hd : pyToNat? d = some dn) (hh : pyToNat? h = some hn)
    (hmi : pyToNat? mi = some miN) (hs : pyToNat? sec = some sN)
    (hms : pyToNat? ms = some msN) (hy : pyToNat? y = some yN) :
    timeFromGroups (mkCaps m d h mi sec ms y) =
      mkDatetime yN ((monthLookup m).getD 1) dn hn miN sN (msN * 1000) ∧
    (∀ tp entry src, (extract_log_info tp entry src).content = entry ∧
      (extract_log_info tp entry src).source_file = src) := by
  constructor
  · simp only [timeFromGroups, mkCaps, capsGet, string_mk_data]
    simp [hd, hh, hmi, hs, hms, hy, Option.bind, string_mk_data]
  · intro tp entry src
    cases hc : reCompile tp false with
    | none =>
      unfold extract_log_info
      rw [hc]
      exact ⟨rfl, rfl⟩
    | some rn =>
      obtain ⟨r, n⟩ := rn
      rw [extract_log_info_eq tp entry src r n hc]
      cases hsr : searchIn false r entry.data with
      | none => exact ⟨rfl, rfl⟩
      | some m3 =>
        obtain ⟨g0, caps, rest⟩ := m3
        exact ⟨rfl, rfl⟩

/-- Witness for C8: an unknown month name `"Foo"` resolves to month 1, and
the out-of-range day 32 makes construction yield `none` while the entry
built from such a text keeps its content. -/
theorem parse_log_time_month_default_and_errors_witness :
    timeFromGroups (mkCaps "Foo" "32" "10" "20" "30" "123" "2025") = none ∧
    (extract_log_info TIME_REGEX_PATTERN_default "May 32 10:20:30:123 2025" "f").content =
      "May 32 10:20:30:123 2025" := by
  have hmain := parse_log_time_month_default_and_errors "Foo" "32" "10" "20" "30" "123"
    "2025" 32 10 20 30 123 2025 (by decide) (by decide) (by decide) (by decide)
    (by decide) (by decide)
  refine ⟨?_, (hmain.2 TIME_REGEX_PATTERN_default "May 32 10:20:30:123 2025" "f").1⟩
  rw [hmain.1]
  decide

/-- Claim C9: the batched accumulation in `filter_logs_by_keywords` is
behaviorally transparent — for every entry list, keyword list and positive
batch size, its result (elements and order, or the raised error) equals
that of the reference single-pass filter that appends each matching entry
directly to one output list. -/
theorem filter_logs_by_keywords_batched_eq_single_pass (batch_size : Nat)
    (hbs : 0 < batch_size) (logs : List LogEntry) (keywords : List String) :
    filter_logs_by_keywords_batched batch_size logs keywords =
      filter_logs_by_keywords_ref logs keywords := by
  unfold filter_logs_by_keywords_batched filter_logs_by_keywords_ref
  simp only [keywordFilterLoop_eq_filter, List.nil_append]

/-- Witness for C9: batch size 2 on a two-entry list behaves like the
reference filter. -/
theorem filter_logs_by_keywords_batched_eq_single_pass_witness :
    0 < 2 ∧
    filter_logs_by_keywords_batched 2 [entryErr, entryOk] ["err"] =
      filter_logs_by_keywords_ref [entryErr, entryOk] ["err"] :=
  ⟨Nat.succ_pos 1,
   filter_logs_by_keywords_batched_eq_single_pass 2 (Nat.succ_pos 1)
     [entryErr, entryOk] ["err"]⟩

/-- Claim C7: `filter_logs_by_keywords` with an empty or all-blank keyword
list returns all input entries unchanged in order and content, and with a
keyword list whose trimmed keywords contain no regex metacharacter (and at
least one non-blank keyword) it returns exactly the subsequence of entries
whose content contains at least one of the trimmed keywords as a
case-insensitive substring. -/
theorem filter_logs_by_keywords_spec (logs : List LogEntry) (keywords : List String) :
    ((∀ k ∈ keywords, pyStrip k = "") →
      filter_logs_by_keywords logs keywords = .ok logs) ∧
    ((∃ k ∈ keywords, pyStrip k ≠ "") →
      (∀ k ∈ keywords, hasRegexChars (pyStrip k) = false) →
      filter_logs_by_keywords logs keywords =
        .ok (logs.filter (fun log =>
          ((keywords.map pyStrip).filter (fun k => k != "")).any
            (fun k => strContains (pyLower log.content) (pyLower k))))) := by
  constructor
  · intro hall
    unfold filter_logs_by_keywords filter_logs_by_keywords_batched
    by_cases hk : keywords.isEmpty
    · simp [hk]
    · have hv : (keywords.map pyStrip).filter (fun k => k != "") = [] := by
        rw [List.filter_eq_nil_iff]
        intro a ha
        rw [List.mem_map] at ha
        obtain ⟨k, hkmem, rfl⟩ := ha
        simp [hall k hkmem]
      simp [hk, hv]
  · intro hex hmeta
    have hne : keywords ≠ [] := by
      obtain ⟨k, hkmem, _⟩ := hex
      exact List.ne_nil_of_mem hkmem
    have hkE : keywords.isEmpty = false := by simp [hne]
    have hvne : (keywords.map pyStrip).filter (fun k => k != "") ≠ [] := by
      obtain ⟨k, hkmem, hkne⟩ := hex
      intro hnil
      rw [List.filter_eq_nil_iff] at hnil
      exact hnil (pyStrip k) (List.mem_map_of_mem pyStrip hkmem) (by simpa using hkne)
    have hvE : ((keywords.map pyStrip).filter (fun k => k != "")).isEmpty = false := by
      simp [hvne]
    have hmetaF : ((keywords.map pyStrip).filter (fun k => k != "")).any hasRegexChars
        = false := by
      rw [List.any_eq_false]
      intro a ha
      rw [List.mem_filter] at ha
      obtain ⟨hamem, _⟩ := ha
      rw [List.mem_map] at hamem
      obtain ⟨k, hkmem, rfl⟩ := hamem
      simp [hmeta k hkmem]
    unfold filter_logs_by_keywords filter_logs_by_keywords_batched
    simp [hkE, hvE, hmetaF, keywordFilterLoop_eq_filter, List.any_map, Function.comp]

/-- Witness for C7: a blank keyword list is the identity, and `["err"]`
keeps exactly the entry containing "ERRor". -/
theorem filter_logs_by_keywords_spec_witness :
    filter_logs_by_keywords [entryErr, entryOk] [" ", ""] = .ok [entryErr, entryOk] ∧
    filter_logs_by_keywords [entryErr, entryOk] ["err"] = .ok [entryErr] := by
  constructor
  · exact (filter_logs_by_keywords_spec [entryErr, entryOk] [" ", ""]).1 (by decide)
  · have h := (filter_logs_by_keywords_spec [entryErr, entryOk] ["err"]).2
      ⟨"err", by decide, by decide⟩ (by decide)
    rw [h]
    congr 1

/-- The failed-file list is exactly the names of the files whose per-file
result is empty, in file order. -/
theorem collectResults_snd (rs : List (List LogEntry × String)) :
    (collectResults rs).2 = (rs.filter (fun p => p.1.isEmpty)).map (·.2) := by
  induction rs with
  | nil => rfl
  | cons p rest ih =>
    obtain ⟨r, n⟩ := p
    simp only [collectResults, List.filter_cons]
    cases hr : r.isEmpty <;> simp [hr, ih]

/-- Unfolding of `collectResults` at a failed (empty-result) file. -/
theorem collectResults_cons_pos (r : List LogEntry) (n : String)
    (rest : List (List LogEntry × String)) (hr : r.isEmpty = true) :
    collectResults ((r, n) :: rest) =
      ((collectResults rest).1, n :: (collectResults rest).2) := by
  simp [collectResults, hr]

/-- Unfolding of `collectResults` at a contributing file. -/
theorem collectResults_cons_neg (r : List LogEntry) (n : String)
    (rest : List (List LogEntry × String)) (hr : r.isEmpty = false) :
    collectResults ((r, n) :: rest) =
      (r ++ (collectResults rest).1, (collectResults rest).2) := by
  simp [collectResults, hr]

/-- The union collected by `collectResults` holds exactly the entries of
the pairs with a non-empty result list. -/
theorem mem_collectResults_fst (rs : List (List LogEntry × String)) (e : LogEntry) :
    e ∈ (collectResults rs).1 ↔ ∃ p ∈ rs, p.1.isEmpty = false ∧ e ∈ p.1 := by
  induction rs with
  | nil => simp [collectResults]
  | cons p rest ih =>
    obtain ⟨r, n⟩ := p
    cases hr : r.isEmpty
    · rw [collectResults_cons_neg r n rest hr]
      simp only [List.mem_append, ih, List.mem_cons]
      constructor
      · rintro (he | ⟨p, hp, hpe, hep⟩)
        · exact ⟨(r, n), Or.inl rfl, hr, he⟩
        · exact ⟨p, Or.inr hp, hpe, hep⟩
      · rintro ⟨p, hp | hp, hpe, hep⟩
        · rw [hp] at hpe hep
          exact Or.inl hep
        · exact Or.inr ⟨p, hp, hpe, hep⟩
    · have hrnil : r = [] := List.isEmpty_iff.mp hr
      subst hrnil
      rw [collectResults_cons_pos [] n rest rfl]
      simp only [ih, List.mem_cons]
      constructor
      · rintro ⟨p, hp, hpe, hep⟩
        exact ⟨p, Or.inr hp, hpe, hep⟩
      · rintro ⟨p, hp | hp, hpe, hep⟩
        · rw [hp] at hpe hep
          simp at hep
        · exact ⟨p, hp, hpe, hep⟩

/-- Claim C6: a file whose bytes cannot be decoded, or that yields zero
entries, is reported in `failed_files` and contributes no entries; the
entries of every other file are all present in the returned union.  (The
per-file and per-entry handlers of the source catch every exception, and
the embedding of the orchestration is a total function, so no per-file
failure can abort the ingest call or its sibling files.) -/
theorem process_log_files_partial_failure (self : LogProcessor)
    (files : List UploadedFile) (lre tre : String) :
    (process_log_files self files lre tre).2 =
      ((files.map (process_file_content self lre tre)).filter
        (fun p => p.1.isEmpty)).map (·.2) ∧
    (∀ f ∈ files, f.decoded = none →
      f.name ∈ (process_log_files self files lre tre).2) ∧
    (∀ p ∈ files.map (process_file_content self lre tre), ∀ e ∈ p.1,
      e ∈ (process_log_files self files lre tre).1) ∧
    (∀ e ∈ (process_log_files self files lre tre).1,
      ∃ p ∈ files.map (process_file_content self lre tre),
        p.1.isEmpty = false ∧ e ∈ p.1) := by
  refine ⟨collectResults_snd _, ?_, ?_, ?_⟩
  · intro f hf hdec
    show f.name ∈ (collectResults (files.map (process_file_content self lre tre))).2
    rw [collectResults_snd]
    have hpf : process_file_content self lre tre f = ([], f.name) := by
      unfold process_file_content
      rw [hdec]
    refine List.mem_map.mpr ⟨([], f.name), List.mem_filter.mpr ⟨?_, rfl⟩, rfl⟩
    rw [← hpf]
    exact List.mem_map_of_mem _ hf
  · intro p hp e he
    show e ∈ List.insertionSort entryLE
      (collectResults (files.map (process_file_content self lre tre))).1
    rw [List.mem_insertionSort]
    refine (mem_collectResults_fst _ _).mpr ⟨p, hp, ?_, he⟩
    rcases hp1 : p.1 with _ | _
    · rw [hp1] at he
      simp at he
    · simp [hp1]
  · intro e he
    have he' : e ∈ List.insertionSort entryLE
        (collectResults (files.map (process_file_content self lre tre))).1 := he
    rw [List.mem_insertionSort] at he'
    exact (mem_collectResults_fst _ _).mp he'

/-- Witness for C6: of three files — undecodable bytes, one good entry, no
frame markers — the bad and empty ones are reported failed and only the
good file's entry is returned. -/
theorem process_log_files_partial_failure_witness :
    "bad" ∈ (process_log_files defaultProcessor [fileBad, fileGood, fileEmpty] "" "").2 ∧
    (process_log_files defaultProcessor [fileBad, fileGood, fileEmpty] "" "").2 =
      ["bad", "empty1"] ∧
    (process_log_files defaultProcessor [fileBad, fileGood, fileEmpty] "" "").1.map
      (fun e => e.source_file) = ["good"] := by
  refine ⟨(process_log_files_partial_failure defaultProcessor
    [fileBad, fileGood, fileEmpty] "" "").2.1 fileBad (by decide) rfl, by decide, by decide⟩

/-- Every timestamp `mkDatetime` constructs is at least the encoding of
`datetime.min` (year, month and day are at least 1). -/
theorem mkDatetime_min_le (y mo d h mi s mic k : Nat)
    (hk : mkDatetime y mo d h mi s mic = some k) : datetimeMin ≤ k := by
  unfold mkDatetime at hk
  split at hk
  · next hcond =>
    injection hk with hk'
    subst hk'
    simp only [Bool.and_eq_true, decide_eq_true_iff] at hcond
    unfold datetimeMin
    omega
  · exact absurd hk (by simp)

/-- Every timestamp built from capture groups is at least `datetime.min`. -/
theorem timeFromGroups_min_le (caps : Caps) (k : Nat)
    (hk : timeFromGroups caps = some k) : datetimeMin ≤ k := by
  unfold timeFromGroups at hk
  split at hk
  · split at hk
    · exact mkDatetime_min_le _ _ _ _ _ _ _ _ hk
    · exact absurd hk (by simp)
  · exact absurd hk (by simp)

/-- Every timestamp `parse_log_time` returns is at least `datetime.min`. -/
theorem parse_log_time_min_le (ts p : String) (k : Nat)
    (hk : parse_log_time ts p = some k) : datetimeMin ≤ k := by
  unfold parse_log_time at hk
  split at hk
  · exact absurd hk (by simp)
  · split at hk
    · split at hk
      · exact absurd hk (by simp)
      · exact timeFromGroups_min_le _ _ hk
    · exact absurd hk (by simp)


/-- Unfolding of `extract_log_info` when its pattern fails to compile. -/
theorem extract_log_info_eq_none (tp s f : String) (hc : reCompile tp false = none) :
    extract_log_info tp s f =
      { content := s, timestamp := none, source_file := f, time_str := "" } := by
  unfold extract_log_info
  rw [hc]

/-- The sort key of every entry `extract_log_info` builds is at least the
key of `datetime.min` (the key an absent timestamp maps to). -/
theorem extract_log_info_key_ge (tp s f : String) :
    datetimeMin ≤ entryKey (extract_log_info tp s f) := by
  cases hc : reCompile tp false with
  | none =>
    rw [extract_log_info_eq_none tp s f hc]
    show datetimeMin ≤ (none : Option Nat).getD datetimeMin
    simp
  | some rn =>
    obtain ⟨r, n⟩ := rn
    rw [extract_log_info_eq tp s f r n hc]
    cases hsr : searchIn false r s.data with
    | none =>
      show datetimeMin ≤ (none : Option Nat).getD datetimeMin
      simp
    | some m3 =>
      obtain ⟨g0, caps, rest⟩ := m3
      show datetimeMin ≤ (parse_log_time (String.mk g0) tp).getD datetimeMin
      cases hp : parse_log_time (String.mk g0) tp with
      | none => simp
      | some k => simpa using parse_log_time_min_le _ _ _ hp

/-- The sort key of every entry a file contributes is at least the key of
`datetime.min`. -/
theorem process_file_content_key_ge (self : LogProcessor) (lre tre : String)
    (f : UploadedFile) (e : LogEntry)
    (he : e ∈ (process_file_content self lre tre f).1) :
    datetimeMin ≤ entryKey e := by
  unfold process_file_content at he
  split at he
  · simp at he
  · obtain ⟨s, _, rfl⟩ := List.mem_map.mp he
    exact extract_log_info_key_ge _ _ _

/-- Filtering to one sort-key class commutes with the stable sort: equal-key
entries keep their arrival order. -/
theorem insertionSort_filter_key (l : List LogEntry) (k : Nat) :
    (List.insertionSort entryLE l).filter (fun e => entryKey e == k) =
      l.filter (fun e => entryKey e == k) := by
  have hpw : (l.filter (fun e => entryKey e == k)).Pairwise entryLE := by
    apply List.pairwise_of_forall_mem_list
    intro a ha b hb
    have h1 : entryKey a = k := by simpa using (List.mem_filter.mp ha).2
    have h2 : entryKey b = k := by simpa using (List.mem_filter.mp hb).2
    unfold entryLE
    omega
  have hsub : List.Sublist (l.filter (fun e => entryKey e == k))
      (List.insertionSort entryLE l) :=
    List.sublist_insertionSort hpw (List.filter_sublist l)
  have hsub2 := hsub.filter (fun e => entryKey e == k)
  rw [List.filter_filter] at hsub2
  have hff : l.filter (fun a => (entryKey a == k) && (entryKey a == k)) =
      l.filter (fun e => entryKey e == k) :=
    List.filter_congr (fun a _ => Bool.and_self _)
  rw [hff] at hsub2
  have hlen := ((List.perm_insertionSort entryLE l).filter
    (fun e => entryKey e == k)).length_eq
  exact (hsub2.eq_of_length hlen.symm).symm

/-- Claim C1 (counterexample): one file whose first entry's text parses to
exactly `datetime.min` (`"Jan 1 0:0:0:0 0001"`) and whose second entry has
no timestamp.  The ingest output places the timestamped entry *before* the
absent-timestamp entry (they share the sort key `datetime.min`, and the
stable sort keeps arrival order), so the output is not ordered with every
absent-timestamp entry before every timestamped entry. -/
theorem timestamped_entry_before_absent_entry :
    (process_log_files defaultProcessor [minTsFile] "" "").1.map (fun e => e.timestamp) =
      [some datetimeMin, none] := by
  decide

/-- Claim C1 (amended): the ingest output is sorted ascending by the sort
key (the timestamp, with an absent timestamp mapping to the key of
`datetime.min`); every entry that precedes an absent-timestamp entry has
the minimal key — so absent-timestamp entries are ordered before every
entry whose timestamp differs from `datetime.min`, and keep arrival order
relative to entries timestamped exactly `datetime.min`; the ordering is
stable (entries with equal or absent keys keep their relative arrival
order, and re-sorting the output yields the same sequence) and — the model
being a pure function of the file list — deterministic for identical
inputs. -/
theorem process_log_files_sort_invariant (self : LogProcessor)
    (files : List UploadedFile) (lre tre : String) :
    (process_log_files self files lre tre).1.Pairwise entryLE ∧
    List.insertionSort entryLE (process_log_files self files lre tre).1 =
      (process_log_files self files lre tre).1 ∧
    (∀ k : Nat, (process_log_files self files lre tre).1.filter
        (fun e => entryKey e == k) =
      (collectResults (files.map (process_file_content self lre tre))).1.filter
        (fun e => entryKey e == k)) ∧
    (process_log_files self files lre tre).1.Pairwise
      (fun a b => b.timestamp = none → entryKey a = datetimeMin) := by
  have hsorted : ((process_log_files self files lre tre).1).Pairwise entryLE :=
    List.sorted_insertionSort entryLE
      (collectResults (files.map (process_file_content self lre tre))).1
  refine ⟨hsorted, List.Sorted.insertionSort_eq hsorted, ?_, ?_⟩
  · intro k
    exact insertionSort_filter_key _ k
  · have hmin : ∀ e ∈ (process_log_files self files lre tre).1,
        datetimeMin ≤ entryKey e := by
      intro e he
      have he' : e ∈ List.insertionSort entryLE
          (collectResults (files.map (process_file_content self lre tre))).1 := he
      rw [List.mem_insertionSort] at he'
      obtain ⟨p, hp, hpe, hep⟩ := (mem_collectResults_fst _ _).mp he'
      obtain ⟨f, _, rfl⟩ := List.mem_map.mp hp
      exact process_file_content_key_ge self lre tre f e hep
    refine List.Pairwise.imp_of_mem ?_ hsorted
    intro a b ha hb hab hbnone
    have hb' : entryKey b = datetimeMin := by
      unfold entryKey
      rw [hbnone]
      rfl
    have hale : entryKey a ≤ entryKey b := hab
    have := hmin a ha
    omega
